import Mathlib

/-!
Verification of the NexGen logistics dashboard core (app.py):
join engine, derivation engine, risk classifier, filter engine and
cost-sensitivity simulator, shallowly embedded in Lean 4.
-/

namespace NexGen

/-! ## Substring containment (Python `needle in haystack`) -/

/-- Does `needle` occur at the head of `hay`? -/
def subAt : List Char → List Char → Bool
  | [], _ => true
  | _ :: _, [] => false
  | n :: ns, h :: hs => n == h && subAt ns hs

/-- Does `needle` occur anywhere in `hay`? (Python `needle in hay`.) -/
def subIn (needle : List Char) : List Char → Bool
  | [] => subAt needle []
  | h :: hs => subAt needle (h :: hs) || subIn needle hs

/-- Python string containment `needle in hay`. -/
def strContains (hay needle : String) : Bool :=
  subIn needle.toList hay.toList

/-- ASCII lowercase of one character (the values this program lowercases are
ASCII). -/
def lowerChar (c : Char) : Char :=
  if 65 ≤ c.toNat ∧ c.toNat ≤ 90 then Char.ofNat (c.toNat + 32) else c

/-- Python `s.lower()` on ASCII strings. -/
def pyLower (s : String) : String :=
  ⟨s.toList.map lowerChar⟩

/-! ## Source tables (orders.csv, delivery_performance.csv, routes_distance.csv) -/

structure OrderRow where
  order_id : ℕ
  order_date : ℤ
  customer_segment : String
  origin : String
deriving DecidableEq

structure DeliveryRow where
  order_id : ℕ
  promised_delivery_days : Option ℤ
  actual_delivery_days : Option ℤ
  weather_impact : Option String
deriving DecidableEq

structure RouteRow where
  order_id : ℕ
  traffic_delay_minutes : Option ℤ
  distance_km : Option ℚ
  delivery_cost_inr : Option ℚ
deriving DecidableEq

/-! ## Join Engine (app.py lines 53-54)

`pd.merge(..., how="left")`: for each left row, one output row per matching
right row, or a single row with nulls when there is no match. -/

/-- A merged row: the order row plus the (possibly absent) matching rows of
the delivery and routes tables. Absent means every column sourced from that
table reads as null. -/
structure RawRow where
  order : OrderRow
  delivery : Option DeliveryRow
  route : Option RouteRow
deriving DecidableEq

/-- The rows a single left row contributes to the delivery merge: one per
matching delivery row, or a single all-null pairing when none matches. -/
def joinStepDelivery (delivery : List DeliveryRow) (o : OrderRow) :
    List (OrderRow × Option DeliveryRow) :=
  match delivery.filter (fun d => d.order_id == o.order_id) with
  | [] => [(o, none)]
  | ds => ds.map (fun d => (o, some d))

/-- `pd.merge(orders, delivery, on="Order_ID", how="left")`. -/
def leftJoinDelivery (orders : List OrderRow) (delivery : List DeliveryRow) :
    List (OrderRow × Option DeliveryRow) :=
  orders.flatMap (joinStepDelivery delivery)

/-- The rows a single left row contributes to the routes merge. -/
def joinStepRoute (routes : List RouteRow) (od : OrderRow × Option DeliveryRow) :
    List RawRow :=
  match routes.filter (fun t => t.order_id == od.1.order_id) with
  | [] => [⟨od.1, od.2, none⟩]
  | ts => ts.map (fun t => ⟨od.1, od.2, some t⟩)

/-- `pd.merge(df, routes, on="Order_ID", how="left")`. -/
def leftJoinRoutes (m : List (OrderRow × Option DeliveryRow))
    (routes : List RouteRow) : List RawRow :=
  m.flatMap (joinStepRoute routes)

/-- Both merges of `load_data`. -/
def mergeAll (orders : List OrderRow) (delivery : List DeliveryRow)
    (routes : List RouteRow) : List RawRow :=
  leftJoinRoutes (leftJoinDelivery orders delivery) routes

/-- Merged column `Actual_Delivery_Days` (null when delivery row missing). -/
def RawRow.actual (r : RawRow) : Option ℤ :=
  r.delivery.bind (fun d => d.actual_delivery_days)

/-- Merged column `Promised_Delivery_Days`. -/
def RawRow.promised (r : RawRow) : Option ℤ :=
  r.delivery.bind (fun d => d.promised_delivery_days)

/-- Merged column `Weather_Impact` before filling. -/
def RawRow.weatherRaw (r : RawRow) : Option String :=
  r.delivery.bind (fun d => d.weather_impact)

/-- Merged column `Traffic_Delay_Minutes` before filling. -/
def RawRow.trafficRaw (r : RawRow) : Option ℤ :=
  r.route.bind (fun t => t.traffic_delay_minutes)

/-- Merged column `Distance_KM` before filling. -/
def RawRow.distRaw (r : RawRow) : Option ℚ :=
  r.route.bind (fun t => t.distance_km)

/-- Merged column `Delivery_Cost_INR` before filling. -/
def RawRow.costRaw (r : RawRow) : Option ℚ :=
  r.route.bind (fun t => t.delivery_cost_inr)

/-! ## Derivation Engine (app.py lines 56-62) -/

/-- Line 56: `df["Delay_Days"] = df["Actual_Delivery_Days"] -
df["Promised_Delivery_Days"]` — null (NaN) whenever either operand is null. -/
def delayDays0 (r : RawRow) : Option ℤ :=
  match r.actual, r.promised with
  | some a, some p => some (a - p)
  | _, _ => none

/-- Line 57: `df["Weather_Impact"].fillna("Clear").astype(str)`. -/
def fillWeather (w : Option String) : String := w.getD "Clear"

/-- Line 58: `df["Traffic_Delay_Minutes"].fillna(0).astype(int)`. -/
def fillTraffic (t : Option ℤ) : ℤ := t.getD 0

/-- Line 60: `df["Distance_KM"].fillna(1.0).replace(0, 0.01)` — null becomes
`1.0`, then a value exactly equal to `0` becomes `0.01`; every other value
(negative included) passes through unchanged. -/
def deriveDistance (d : Option ℚ) : ℚ :=
  let x := d.getD 1
  if x = 0 then 1 / 100 else x

/-- Line 61: `df["Delivery_Cost_INR"].fillna(0)`. -/
def fillCost (c : Option ℚ) : ℚ := c.getD 0

/-! ## Risk Classifier (app.py lines 64-76) -/

/-- Pandas comparison `Delay_Days > 0` where `Delay_Days` may be NaN:
`NaN > 0` is `False`. -/
def optGtZero : Option ℤ → Bool
  | none => false
  | some d => decide (0 < d)

/-- The predictive branch of `assess_risk` (lines 69-76), reached only when
`Actual_Delivery_Days` is null. -/
def predictiveRisk (weather : String) (traffic : ℤ) : String :=
  let w := pyLower weather
  if strContains w "rain" || strContains w "storm" || strContains w "fog" then
    "Predicted Delay: Weather"
  else if 45 < traffic then "Predicted Delay: Traffic"
  else "On Track"

/-- `assess_risk(row)` (lines 64-76): delivered branch first, then the
predictive branch. -/
def assessRisk (actual : Option ℤ) (delay : Option ℤ) (weather : String)
    (traffic : ℤ) : String :=
  match actual with
  | some _ => if optGtZero delay then "Late Delivery" else "Completed"
  | none => predictiveRisk weather traffic

/-! ## Full per-row pipeline (lines 56-79) -/

/-- A fully derived record, as exposed to the dashboard. -/
structure Row where
  order_id : ℕ
  order_date : ℤ
  customer_segment : String
  origin : String
  delayDays : ℤ
  weather : String
  traffic : ℤ
  distance : ℚ
  cost : ℚ
  costPerKm : ℚ
  status : String
deriving DecidableEq

/-- Lines 56-79 applied to one merged row: derive the cleaned columns,
classify `Status` from the still-null-able `Delay_Days`, and only afterwards
resolve a null `Delay_Days` to `0` (line 79). -/
def deriveRow (r : RawRow) : Row :=
  let delay0 := delayDays0 r
  let w := fillWeather r.weatherRaw
  let t := fillTraffic r.trafficRaw
  let dist := deriveDistance r.distRaw
  let cost := fillCost r.costRaw
  { order_id := r.order.order_id
    order_date := r.order.order_date
    customer_segment := r.order.customer_segment
    origin := r.order.origin
    delayDays := delay0.getD 0
    weather := w
    traffic := t
    distance := dist
    cost := cost
    costPerKm := cost / dist
    status := assessRisk r.actual delay0 w t }

/-- `load_data()` minus the CSV reads: merge the three tables and derive
every row. -/
def loadData (orders : List OrderRow) (delivery : List DeliveryRow)
    (routes : List RouteRow) : List Row :=
  (mergeAll orders delivery routes).map deriveRow

/-! ## Filter Engine (app.py lines 115-121) -/

/-- The sidebar filter state: a date interval, a set of segments, a set of
statuses. -/
structure FilterInput where
  dateStart : ℤ
  dateEnd : ℤ
  segments : List String
  statuses : List String

/-- The boolean mask of lines 115-120, for one row. -/
def maskRow (f : FilterInput) (r : Row) : Bool :=
  (f.dateStart ≤ r.order_date) && (r.order_date ≤ f.dateEnd) &&
    f.segments.contains r.customer_segment && f.statuses.contains r.status

/-- `filtered_df = df[mask]` (line 121). -/
def filterRows (f : FilterInput) (rows : List Row) : List Row :=
  rows.filter (maskRow f)

/-! ## Tab-1 aggregates (app.py lines 133-138) -/

/-- Line 133: `filtered_df["Delivery_Cost_INR"].sum()` (pandas sum of an
empty column is `0`). -/
def sumCost (rows : List Row) : ℚ :=
  (rows.map (fun r => r.cost)).sum

/-- Line 136: `Status.str.contains("Predicted|Late")` — the regex alternation
matches when either literal occurs as a substring. -/
def isRiskStatus (s : String) : Bool :=
  strContains s "Predicted" || strContains s "Late"

/-- Line 136: `len(filtered_df[filtered_df["Status"].str.contains(...)])`. -/
def riskCount (rows : List Row) : ℕ :=
  (rows.filter (fun r => isRiskStatus r.status)).length

/-- Line 138: `(risk_count / total_count * 100) if total_count > 0 else 0`. -/
def riskRatio (rows : List Row) : ℚ :=
  if 0 < rows.length then (riskCount rows : ℚ) / (rows.length : ℚ) * 100 else 0

/-- Line 134: `filtered_df["Delay_Days"].mean()` — the pandas mean of an
empty column is NaN, embedded here as `none`; there is no fallback in the
code. -/
def meanDelay (rows : List Row) : Option ℚ :=
  if rows.length = 0 then none
  else some ((rows.map (fun r => (r.delayDays : ℚ))).sum / (rows.length : ℚ))

/-! ## Scenario Simulator (app.py lines 226-233) -/

/-- The five quantities computed by the simulator block. -/
structure SimResult where
  fuelImpact : ℚ
  intermediateCost : ℚ
  efficiencySavings : ℚ
  projectedCost : ℚ
  variance : ℚ
deriving DecidableEq

/-- Lines 228-233, in source order:
`fuel_impact_amt = current_cost * (fuel_hike/100)`;
`intermediate_cost = current_cost + fuel_impact_amt`;
`efficiency_savings_amt = intermediate_cost * (efficiency_gain/100) * -1`;
`projected_cost = intermediate_cost + efficiency_savings_amt`;
`variance = projected_cost - current_cost`. -/
def project (baseCost fuelHikePct efficiencyGainPct : ℚ) : SimResult :=
  let fuelImpact := baseCost * (fuelHikePct / 100)
  let intermediateCost := baseCost + fuelImpact
  let efficiencySavings := intermediateCost * (efficiencyGainPct / 100) * (-1)
  let projectedCost := intermediateCost + efficiencySavings
  { fuelImpact := fuelImpact
    intermediateCost := intermediateCost
    efficiencySavings := efficiencySavings
    projectedCost := projectedCost
    variance := projectedCost - baseCost }

/-! ## Concrete sample data, used for witnesses and counterexamples -/

/-- A delivered order, late, with bad weather and heavy traffic. -/
def rowLate : RawRow :=
  ⟨⟨1, 10, "Retail", "Mumbai"⟩, some ⟨1, some 3, some 5, some "Storm"⟩,
    some ⟨1, some 100, some 4, some 200⟩⟩

/-- An undelivered order in heavy rain with heavy traffic. -/
def rowRain : RawRow :=
  ⟨⟨2, 10, "Retail", "Mumbai"⟩, some ⟨2, some 3, none, some "Heavy Rain"⟩,
    some ⟨2, some 100, some 4, some 200⟩⟩

/-- An undelivered order, clear weather, 46 traffic minutes. -/
def rowClear46 : RawRow :=
  ⟨⟨3, 10, "Retail", "Mumbai"⟩, some ⟨3, some 3, none, some "Clear"⟩,
    some ⟨3, some 46, some 4, some 200⟩⟩

/-- An undelivered order, clear weather, 45 traffic minutes. -/
def rowClear45 : RawRow :=
  ⟨⟨4, 10, "Retail", "Mumbai"⟩, some ⟨4, some 3, none, some "Clear"⟩,
    some ⟨4, some 45, some 4, some 200⟩⟩

/-- A merged row whose recorded distance is exactly `0`. -/
def rowZeroDist : RawRow :=
  ⟨⟨5, 10, "Retail", "Mumbai"⟩, none, some ⟨5, some 0, some 0, some 200⟩⟩

/-- A merged row whose recorded distance is negative. -/
def rowNegDist : RawRow :=
  ⟨⟨6, 10, "Retail", "Mumbai"⟩, none, some ⟨6, some 0, some (-5), some 200⟩⟩

/-- A delivered order that arrived two days early. -/
def rowEarly : RawRow :=
  ⟨⟨7, 10, "Retail", "Mumbai"⟩, some ⟨7, some 3, some 1, some "Clear"⟩, none⟩

/-- A fully derived sample record. -/
def rEx : Row :=
  ⟨1, 10, "Retail", "Mumbai", 2, "Storm", 100, 4, 200, 50, "Late Delivery"⟩

/-- A filter selecting everything relevant to `rEx`. -/
def fEx : FilterInput := ⟨0, 20, ["Retail"], ["Late Delivery", "On Track"]⟩

/-- A filter with an empty status set. -/
def fNoStatus : FilterInput := ⟨0, 20, ["Retail"], []⟩

/-- A derived sample record for the empty-view aggregates. -/
def c6row : Row :=
  ⟨1, 10, "Retail", "Mumbai", 2, "Storm", 100, 4, 200, 50, "Late Delivery"⟩

/-- A filter with an empty status set for the empty-view aggregates. -/
def c6fEmpty : FilterInput := ⟨0, 20, ["Retail"], []⟩

/-- A lone order row with no delivery and no route data. -/
def c7o : OrderRow := ⟨9, 10, "Retail", "Pune"⟩

/-- An order row inserted twice into the orders table. -/
def c7dup : OrderRow := ⟨1, 10, "Retail", "Mumbai"⟩

/-! ## Helper lemmas -/

/-- If the keys of `l` are pairwise distinct, at most one element matches a
given key. -/
lemma length_filter_key_le {α : Type} (key : α → ℕ) (l : List α)
    (h : (l.map key).Nodup) (k : ℕ) :
    (l.filter (fun x => key x == k)).length ≤ 1 := by
  induction l with
  | nil => simp
  | cons x xs ih =>
    rw [List.map_cons, List.nodup_cons] at h
    by_cases hx : key x = k
    · have hnil : xs.filter (fun y => key y == k) = [] := by
        refine List.filter_eq_nil_iff.mpr (fun y hy => ?_)
        simp only [beq_iff_eq]
        intro hyk
        exact h.1 (hx ▸ hyk ▸ List.mem_map_of_mem key hy)
      simp [List.filter_cons, hx, hnil]
    · simpa [List.filter_cons, hx] using ih h.2

/-- If the keys of `l` are pairwise distinct and `x ∈ l`, exactly one element
matches the key of `x`. -/
lemma length_filter_key_eq_one {α : Type} (key : α → ℕ) (l : List α)
    (h : (l.map key).Nodup) (x : α) (hx : x ∈ l) :
    (l.filter (fun y => key y == key x)).length = 1 := by
  refine le_antisymm (length_filter_key_le key l h (key x)) ?_
  have hmem : x ∈ l.filter (fun y => key y == key x) :=
    List.mem_filter.mpr ⟨hx, by simp⟩
  exact List.length_pos.mpr (List.ne_nil_of_mem hmem)

/-- The length of a filter over a mapped list. -/
lemma length_filter_map {α β : Type} (f : α → β) (p : β → Bool) (l : List α) :
    ((l.map f).filter p).length = (l.filter (fun x => p (f x))).length := by
  induction l with
  | nil => rfl
  | cons x xs ih =>
    by_cases hx : p (f x) <;> simp [List.filter_cons, hx, ih]

/-- With unique delivery keys, each order contributes exactly the pairing
with `head?` of its matches. -/
lemma joinStepDelivery_eq (delivery : List DeliveryRow)
    (hd : (delivery.map (fun d => d.order_id)).Nodup) (o : OrderRow) :
    joinStepDelivery delivery o =
      [(o, (delivery.filter (fun d => d.order_id == o.order_id)).head?)] := by
  have hle := length_filter_key_le (fun d => d.order_id) delivery hd o.order_id
  rcases hf : delivery.filter (fun d => d.order_id == o.order_id) with _ | ⟨d, ds⟩
  · simp [joinStepDelivery, hf]
  · rw [hf, List.length_cons] at hle
    have hds : ds = [] := List.length_eq_zero.mp (by omega)
    subst hds
    simp [joinStepDelivery, hf]

/-- With unique route keys, each intermediate row contributes exactly the
pairing with `head?` of its matches. -/
lemma joinStepRoute_eq (routes : List RouteRow)
    (ht : (routes.map (fun t => t.order_id)).Nodup)
    (od : OrderRow × Option DeliveryRow) :
    joinStepRoute routes od =
      [⟨od.1, od.2, (routes.filter (fun t => t.order_id == od.1.order_id)).head?⟩] := by
  have hle := length_filter_key_le (fun t => t.order_id) routes ht od.1.order_id
  rcases hf : routes.filter (fun t => t.order_id == od.1.order_id) with _ | ⟨t, ts⟩
  · simp [joinStepRoute, hf]
  · rw [hf, List.length_cons] at hle
    have hts : ts = [] := List.length_eq_zero.mp (by omega)
    subst hts
    simp [joinStepRoute, hf]

/-- A flatMap of singletons is a map. -/
lemma flatMap_singleton_eq_map {α β : Type} (l : List α) (f : α → β)
    (g : α → List β) (hg : ∀ x, g x = [f x]) : l.flatMap g = l.map f := by
  induction l with
  | nil => rfl
  | cons x xs ih => simp [List.flatMap_cons, hg, ih]

/-- Under unique keys in `delivery` and `routes`, the double left merge is a
plain map over the orders table. -/
lemma mergeAll_eq (orders : List OrderRow) (delivery : List DeliveryRow)
    (routes : List RouteRow)
    (hd : (delivery.map (fun d => d.order_id)).Nodup)
    (ht : (routes.map (fun t => t.order_id)).Nodup) :
    mergeAll orders delivery routes =
      orders.map (fun o =>
        ⟨o, (delivery.filter (fun d => d.order_id == o.order_id)).head?,
            (routes.filter (fun t => t.order_id == o.order_id)).head?⟩) := by
  have h1 : leftJoinDelivery orders delivery =
      orders.map (fun o =>
        (o, (delivery.filter (fun d => d.order_id == o.order_id)).head?)) :=
    flatMap_singleton_eq_map orders _ _ (joinStepDelivery_eq delivery hd)
  have h2 : leftJoinRoutes (leftJoinDelivery orders delivery) routes =
      (leftJoinDelivery orders delivery).map (fun od =>
        ⟨od.1, od.2, (routes.filter (fun t => t.order_id == od.1.order_id)).head?⟩) :=
    flatMap_singleton_eq_map _ _ _ (joinStepRoute_eq routes ht)
  rw [mergeAll, h2, h1, List.map_map]
  rfl

/-- Every element contributed by `joinStepDelivery` carries the originating
order row. -/
lemma joinStepDelivery_fst (delivery : List DeliveryRow) (o : OrderRow)
    (x : OrderRow × Option DeliveryRow) (hx : x ∈ joinStepDelivery delivery o) :
    x.1 = o := by
  unfold joinStepDelivery at hx
  rcases hf : delivery.filter (fun d => d.order_id == o.order_id) with _ | ⟨d, ds⟩ <;>
    rw [hf] at hx
  · simpa using congrArg Prod.fst (List.mem_singleton.mp hx)
  · rcases List.mem_map.mp hx with ⟨d2, _, rfl⟩
    rfl

/-- Every element contributed by `joinStepRoute` carries the originating
order row and delivery option. -/
lemma joinStepRoute_parts (routes : List RouteRow)
    (od : OrderRow × Option DeliveryRow) (r : RawRow)
    (hr : r ∈ joinStepRoute routes od) : r.order = od.1 ∧ r.delivery = od.2 := by
  unfold joinStepRoute at hr
  rcases hf : routes.filter (fun t => t.order_id == od.1.order_id) with _ | ⟨t, ts⟩ <;>
    rw [hf] at hr
  · rcases List.mem_singleton.mp hr with rfl
    exact ⟨rfl, rfl⟩
  · rcases List.mem_map.mp hr with ⟨t2, _, rfl⟩
    exact ⟨rfl, rfl⟩

/-- The order row of every merged row comes from the orders table. -/
lemma mergeAll_order_mem (orders : List OrderRow) (delivery : List DeliveryRow)
    (routes : List RouteRow) (r : RawRow)
    (hr : r ∈ mergeAll orders delivery routes) : r.order ∈ orders := by
  rcases List.mem_flatMap.mp hr with ⟨od, hod, hstep⟩
  rcases List.mem_flatMap.mp hod with ⟨o, ho, hstepD⟩
  have h1 := (joinStepRoute_parts routes od r hstep).1
  have h2 := joinStepDelivery_fst delivery o od hstepD
  rw [h1, h2]
  exact ho

/-- Under unique keys in `delivery` and `routes`, the number of final records
carrying a given key equals the number of order rows carrying it. -/
lemma loadData_count (orders : List OrderRow) (delivery : List DeliveryRow)
    (routes : List RouteRow)
    (hd : (delivery.map (fun d => d.order_id)).Nodup)
    (ht : (routes.map (fun t => t.order_id)).Nodup) (k : ℕ) :
    ((loadData orders delivery routes).filter
        (fun row => row.order_id == k)).length =
      (orders.filter (fun o => o.order_id == k)).length := by
  unfold loadData
  rw [mergeAll_eq orders delivery routes hd ht, List.map_map, length_filter_map]
  congr 1

/-! ## Claims -/

/-- C1: For every merged row with `actual_delivery_days` present, the Risk
Classifier returns `Late Delivery` when `delay_days > 0` and `Completed`
otherwise, whatever the weather and traffic fields hold: the delivered
branch strictly precedes the predictive branch. -/
theorem c1_delivered_branch_precedence (r : RawRow) (a : ℤ)
    (h : r.actual = some a) :
    (deriveRow r).status =
      if optGtZero (delayDays0 r) then "Late Delivery" else "Completed" := by
  simp [deriveRow, assessRisk, h]

/-- Witness for C1: a delivered, late order in a storm with 100 traffic
minutes is still classified `Late Delivery`. -/
theorem c1_witness :
    ((deriveRow rowLate).status =
        if optGtZero (delayDays0 rowLate) then "Late Delivery"
        else "Completed") ∧
      (deriveRow rowLate).status = "Late Delivery" :=
  ⟨c1_delivered_branch_precedence rowLate 5 (by decide), by decide⟩

/-- C2: For every merged row with `actual_delivery_days` absent, the Risk
Classifier returns `Predicted Delay: Weather` whenever the lowercased
weather contains `rain`, `storm` or `fog`; otherwise `Predicted Delay:
Traffic` exactly when `traffic_delay_minutes > 45`; otherwise `On Track`. -/
theorem c2_predictive_branch (r : RawRow) (h : r.actual = none) :
    (deriveRow r).status =
      if strContains (pyLower (fillWeather r.weatherRaw)) "rain"
          || strContains (pyLower (fillWeather r.weatherRaw)) "storm"
          || strContains (pyLower (fillWeather r.weatherRaw)) "fog" then
        "Predicted Delay: Weather"
      else if 45 < fillTraffic r.trafficRaw then "Predicted Delay: Traffic"
      else "On Track" := by
  simp [deriveRow, assessRisk, h, predictiveRisk]

/-- Witness for C2: `Heavy Rain` with 100 traffic minutes is `Predicted
Delay: Weather`; `Clear` with 46 minutes is `Predicted Delay: Traffic`;
`Clear` with 45 minutes is `On Track`. -/
theorem c2_witness :
    (deriveRow rowRain).status = "Predicted Delay: Weather" ∧
    (deriveRow rowClear46).status = "Predicted Delay: Traffic" ∧
    (deriveRow rowClear45).status = "On Track" :=
  ⟨(c2_predictive_branch rowRain (by decide)).trans (by decide),
   (c2_predictive_branch rowClear46 (by decide)).trans (by decide),
   (c2_predictive_branch rowClear45 (by decide)).trans (by decide)⟩

/-- C3: For every row whose recorded distance is nonnegative or missing, the
derived `distance_km` is strictly positive (missing becomes `1`, exact `0`
becomes `0.01`), so `cost_per_km` never divides by zero. -/
theorem c3_distance_floor (r : RawRow)
    (h : ∀ x : ℚ, r.distRaw = some x → 0 ≤ x) :
    0 < (deriveRow r).distance ∧ (deriveRow r).distance ≠ 0 ∧
    (deriveRow r).costPerKm = (deriveRow r).cost / (deriveRow r).distance ∧
    deriveDistance none = 1 ∧ deriveDistance (some 0) = 1 / 100 := by
  have hpos : 0 < deriveDistance r.distRaw := by
    rcases hr : r.distRaw with _ | x
    · norm_num [deriveDistance]
    · have hx := h x hr
      by_cases hx0 : x = 0
      · subst hx0
        norm_num [deriveDistance]
      · have hlt : 0 < x := lt_of_le_of_ne hx (Ne.symm hx0)
        simpa [deriveDistance, hx0] using hlt
  have hdist : (deriveRow r).distance = deriveDistance r.distRaw := rfl
  exact ⟨hdist ▸ hpos, hdist ▸ hpos.ne', rfl, by norm_num [deriveDistance],
    by norm_num [deriveDistance]⟩

/-- Witness for C3: a recorded distance of exactly `0` derives to a strictly
positive value. -/
theorem c3_witness : 0 < (deriveRow rowZeroDist).distance :=
  (c3_distance_floor rowZeroDist (fun x hx => by
    have h0 : (some (0 : ℚ)) = some x := hx
    injection h0 with h0
    exact le_of_eq h0)).1

/-- C4: The simulator computes, in order, `fuelImpact = baseCost *
(fuelHikePct / 100)`, `intermediateCost = baseCost + fuelImpact`,
`efficiencySavings = -1 * intermediateCost * (efficiencyGainPct / 100)`
(against the fuel-inflated cost), `projectedCost = intermediateCost +
efficiencySavings`, `variance = projectedCost - baseCost`; at
`(1000000, 15, 10)` the outputs are `150000`, `1150000`, `-115000`,
`1035000`, `35000`, and at `baseCost = 0` all outputs are `0`. -/
theorem c4_simulator_waterfall (b f e : ℚ) :
    (project b f e).fuelImpact = b * (f / 100) ∧
    (project b f e).intermediateCost = b + (project b f e).fuelImpact ∧
    (project b f e).efficiencySavings =
      -1 * (project b f e).intermediateCost * (e / 100) ∧
    (project b f e).projectedCost =
      (project b f e).intermediateCost + (project b f e).efficiencySavings ∧
    (project b f e).variance = (project b f e).projectedCost - b ∧
    project 1000000 15 10 = ⟨150000, 1150000, -115000, 1035000, 35000⟩ ∧
    project 0 f e = ⟨0, 0, 0, 0, 0⟩ := by
  refine ⟨rfl, rfl, ?_, rfl, rfl, ?_, ?_⟩
  · show (b + b * (f / 100)) * (e / 100) * (-1) =
      -1 * (b + b * (f / 100)) * (e / 100)
    ring
  · norm_num [project, SimResult.mk.injEq]
  · simp [project, SimResult.mk.injEq]

/-- C5: For every base cost and integer percentages in `[0, 100]`, the
additive identity `baseCost + fuelImpact + efficiencySavings = projectedCost`
holds exactly. -/
theorem c5_additive_identity (b : ℚ) (f e : ℤ)
    (hf0 : 0 ≤ f) (hf1 : f ≤ 100) (he0 : 0 ≤ e) (he1 : e ≤ 100) :
    b + (project b (f : ℚ) (e : ℚ)).fuelImpact
        + (project b (f : ℚ) (e : ℚ)).efficiencySavings
      = (project b (f : ℚ) (e : ℚ)).projectedCost := by
  simp only [project]

/-- Witness for C5: the identity at `(1000000, 15, 10)`. -/
theorem c5_witness :
    (1000000 : ℚ) + (project 1000000 ((15 : ℤ) : ℚ) ((10 : ℤ) : ℚ)).fuelImpact
        + (project 1000000 ((15 : ℤ) : ℚ) ((10 : ℤ) : ℚ)).efficiencySavings
      = (project 1000000 ((15 : ℤ) : ℚ) ((10 : ℤ) : ℚ)).projectedCost :=
  c5_additive_identity 1000000 15 10 (by norm_num) (by norm_num)
    (by norm_num) (by norm_num)

/-- C8: `delay_days` is `actual - promised` when the delivered fields are
present (never clamped, so it may be negative); when `actual` is absent it
stays null through classification (the classifier reads the pre-fill value)
and is set to `0` only afterwards, so the final `delay_days` is always a
defined number. -/
theorem c8_delay_days (r : RawRow) :
    (∀ a p : ℤ, r.actual = some a → r.promised = some p →
        delayDays0 r = some (a - p) ∧ (deriveRow r).delayDays = a - p) ∧
    (r.actual = none → delayDays0 r = none ∧ (deriveRow r).delayDays = 0) ∧
    (deriveRow r).status =
      assessRisk r.actual (delayDays0 r) (fillWeather r.weatherRaw)
        (fillTraffic r.trafficRaw) ∧
    (deriveRow r).delayDays = (delayDays0 r).getD 0 := by
  refine ⟨?_, ?_, rfl, rfl⟩
  · intro a p ha hp
    have h0 : delayDays0 r = some (a - p) := by simp [delayDays0, ha, hp]
    exact ⟨h0, by simp [deriveRow, h0]⟩
  · intro ha
    have h0 : delayDays0 r = none := by simp [delayDays0, ha]
    exact ⟨h0, by simp [deriveRow, h0]⟩

/-- Witness for C8: an order delivered two days early has `delay_days = -2`,
not clamped to `0`. -/
theorem c8_witness :
    (delayDays0 rowEarly = some (1 - 3) ∧
      (deriveRow rowEarly).delayDays = 1 - 3) ∧
    (deriveRow rowEarly).delayDays = -2 :=
  ⟨(c8_delay_days rowEarly).1 1 3 rfl rfl, by decide⟩

/-- C9: A record is in the filtered view iff its date lies in the inclusive
range and its segment and status belong to the selected sets; an empty
segment or status set yields an empty view. -/
theorem c9_conjunctive_filter (f : FilterInput) (rows : List Row) :
    (∀ r : Row, r ∈ filterRows f rows ↔
      (r ∈ rows ∧ f.dateStart ≤ r.order_date ∧ r.order_date ≤ f.dateEnd ∧
        r.customer_segment ∈ f.segments ∧ r.status ∈ f.statuses)) ∧
    (f.segments = [] → filterRows f rows = []) ∧
    (f.statuses = [] → filterRows f rows = []) := by
  refine ⟨?_, ?_, ?_⟩
  · intro r
    simp [filterRows, maskRow, List.mem_filter, and_assoc]
  · intro h
    unfold filterRows
    refine List.filter_eq_nil_iff.mpr (fun r _ => ?_)
    simp [maskRow, h]
  · intro h
    unfold filterRows
    refine List.filter_eq_nil_iff.mpr (fun r _ => ?_)
    simp [maskRow, h]

/-- Witness for C9: the predicate at a concrete record and filter, and the
empty-status case at a concrete view. -/
theorem c9_witness :
    (rEx ∈ filterRows fEx [rEx] ↔
      (rEx ∈ [rEx] ∧ fEx.dateStart ≤ rEx.order_date ∧
        rEx.order_date ≤ fEx.dateEnd ∧
        rEx.customer_segment ∈ fEx.segments ∧ rEx.status ∈ fEx.statuses)) ∧
    filterRows fNoStatus [rEx] = [] :=
  ⟨(c9_conjunctive_filter fEx [rEx]).1 rEx,
   (c9_conjunctive_filter fNoStatus [rEx]).2.2 rfl⟩

/-- C10: A negative recorded distance passes through derivation unchanged —
the `0.01` replacement applies only to values exactly `0` and the `1` fill
only to missing values — so the derived distance is nonzero but can be
negative, and `cost_per_km` is then computed with a negative denominator. -/
theorem c10_negative_distance (x : ℚ) (hx : x < 0) (r : RawRow)
    (hr : r.distRaw = some x) :
    (deriveRow r).distance = x ∧ (deriveRow r).distance < 0 ∧
    (deriveRow r).costPerKm = (deriveRow r).cost / x ∧
    (∀ y : ℚ, y ≠ 0 → deriveDistance (some y) = y) ∧
    (∀ d : Option ℚ, deriveDistance d ≠ 0) := by
  have hxne : x ≠ 0 := ne_of_lt hx
  have h1 : (deriveRow r).distance = x := by
    simp [deriveRow, deriveDistance, hr, hxne]
  refine ⟨h1, h1 ▸ hx, ?_, ?_, ?_⟩
  · have h2 : (deriveRow r).costPerKm =
        (deriveRow r).cost / (deriveRow r).distance := rfl
    rw [h2, h1]
  · intro y hy
    simp [deriveDistance, hy]
  · intro d
    rcases d with _ | y
    · norm_num [deriveDistance]
    · by_cases hy : y = 0
      · subst hy
        norm_num [deriveDistance]
      · simp [deriveDistance, hy]

/-- Witness for C10: a recorded distance of `-5` stays `-5` after
derivation. -/
theorem c10_witness :
    (deriveRow rowNegDist).distance = -5 ∧ (deriveRow rowNegDist).distance < 0 :=
  ⟨(c10_negative_distance (-5) (by norm_num) rowNegDist rfl).1,
   (c10_negative_distance (-5) (by norm_num) rowNegDist rfl).2.1⟩

/-- C6 counterexample: on the empty view produced by an empty status set,
the mean of `delay_days` is the pandas NaN (`none`): the code substitutes no
defined fallback for it, so not every aggregate yields a defined
zero-equivalent. -/
theorem c6_counterexample :
    c6fEmpty.statuses = [] ∧
    filterRows c6fEmpty [c6row] = [] ∧
    meanDelay (filterRows c6fEmpty [c6row]) = none ∧
    ¬ ∃ q : ℚ, meanDelay (filterRows c6fEmpty [c6row]) = some q := by
  have h : filterRows c6fEmpty [c6row] = [] := by decide
  refine ⟨rfl, h, by rw [h]; rfl, ?_⟩
  rw [h]
  rintro ⟨q, hq⟩
  simp [meanDelay] at hq

/-- C6 (amended): on the empty view produced by an empty status set no
aggregate raises; the risk ratio is `0` by its explicit guard and the cost
sum is `0`, while the mean of `delay_days` is the pandas NaN (`none`) with
no fallback substituted. -/
theorem c6_empty_view_aggregates (f : FilterInput) (rows : List Row)
    (h : f.statuses = []) :
    filterRows f rows = [] ∧ sumCost (filterRows f rows) = 0 ∧
    riskRatio (filterRows f rows) = 0 ∧
    meanDelay (filterRows f rows) = none := by
  have he : filterRows f rows = [] := by
    unfold filterRows
    refine List.filter_eq_nil_iff.mpr (fun r _ => ?_)
    simp [maskRow, h]
  rw [he]
  refine ⟨rfl, ?_, ?_, rfl⟩
  · norm_num [sumCost]
  · norm_num [riskRatio]

/-- Witness for C6: the empty-status aggregates at a concrete view. -/
theorem c6_witness :
    filterRows c6fEmpty [c6row] = [] ∧
    sumCost (filterRows c6fEmpty [c6row]) = 0 ∧
    riskRatio (filterRows c6fEmpty [c6row]) = 0 ∧
    meanDelay (filterRows c6fEmpty [c6row]) = none :=
  c6_empty_view_aggregates c6fEmpty [c6row] rfl

/-- C7 (amended): when `order_id` is unique within orders, delivery and
routes, the double left join is left-preserving: every order appears exactly
once in the final record set; every final record stems from an order row; a
merged row with no matching delivery row has all delivery-sourced fields
null and its status comes from the predictive branch. -/
theorem c7_left_join (orders : List OrderRow) (delivery : List DeliveryRow)
    (routes : List RouteRow)
    (ho : (orders.map (fun o => o.order_id)).Nodup)
    (hd : (delivery.map (fun d => d.order_id)).Nodup)
    (ht : (routes.map (fun t => t.order_id)).Nodup) :
    (∀ o ∈ orders,
      ((loadData orders delivery routes).filter
        (fun row => row.order_id == o.order_id)).length = 1) ∧
    (∀ row ∈ loadData orders delivery routes,
      ∃ o ∈ orders, row.order_id = o.order_id) ∧
    (∀ r ∈ mergeAll orders delivery routes,
      (∀ d ∈ delivery, ¬ d.order_id = r.order.order_id) →
      r.delivery = none ∧ r.actual = none ∧ r.promised = none ∧
      r.weatherRaw = none ∧
      (deriveRow r).status =
        predictiveRisk (fillWeather r.weatherRaw) (fillTraffic r.trafficRaw)) := by
  refine ⟨?_, ?_, ?_⟩
  · intro o hoin
    rw [loadData_count orders delivery routes hd ht o.order_id]
    exact length_filter_key_eq_one (fun y => y.order_id) orders ho o hoin
  · intro row hrow
    unfold loadData at hrow
    rcases List.mem_map.mp hrow with ⟨r, hr, rfl⟩
    exact ⟨r.order, mergeAll_order_mem orders delivery routes r hr, rfl⟩
  · intro r hr hnone
    rcases List.mem_flatMap.mp hr with ⟨od, hod, hstep⟩
    have hparts := joinStepRoute_parts routes od r hstep
    rcases List.mem_flatMap.mp hod with ⟨o, hoin, hstepD⟩
    have ho1 := joinStepDelivery_fst delivery o od hstepD
    have hfil : delivery.filter (fun d => d.order_id == o.order_id) = [] := by
      refine List.filter_eq_nil_iff.mpr (fun d hdmem => ?_)
      simp only [beq_iff_eq]
      have hne := hnone d hdmem
      rw [hparts.1, ho1] at hne
      exact hne
    have hsingle : joinStepDelivery delivery o = [(o, none)] := by
      simp [joinStepDelivery, hfil]
    rw [hsingle] at hstepD
    rcases List.mem_singleton.mp hstepD with rfl
    have hdnone : r.delivery = none := hparts.2
    refine ⟨hdnone, ?_, ?_, ?_, ?_⟩
    · simp [RawRow.actual, hdnone]
    · simp [RawRow.promised, hdnone]
    · simp [RawRow.weatherRaw, hdnone]
    · have ha : r.actual = none := by simp [RawRow.actual, hdnone]
      simp [deriveRow, assessRisk, ha]

/-- Witness for C7: a one-order table with no delivery and no route rows
yields exactly one final record for that order. -/
theorem c7_witness :
    ((loadData [c7o] [] []).filter
      (fun row => row.order_id == c7o.order_id)).length = 1 :=
  (c7_left_join [c7o] [] [] (by decide) (by decide) (by decide)).1 c7o
    (by decide)

/-- C7 counterexample: with `order_id` unique within delivery and routes but
duplicated in the orders table, an `order_id` of the orders table appears
twice in the final record set, not exactly once. -/
theorem c7_counterexample :
    (([] : List DeliveryRow).map (fun d => d.order_id)).Nodup ∧
    (([] : List RouteRow).map (fun t => t.order_id)).Nodup ∧
    c7dup ∈ [c7dup, c7dup] ∧
    ((loadData [c7dup, c7dup] [] []).filter
      (fun row => row.order_id == c7dup.order_id)).length = 2 := by
  refine ⟨by decide, by decide, by decide, by decide⟩

end NexGen
